import Mathlib

/-!
Shallow embedding of the crawl/pipeline subsystem of the grocery_scraper
repository, together with proofs settling the frozen claims about it.

Python floats are modelled as rationals (ℚ); SQLite tables as lists of row
structures, with the SQL semantics of `INSERT OR REPLACE` / `INSERT OR IGNORE`
under a UNIQUE index spelled out explicitly (in particular, NULLs are distinct
for a UNIQUE index, as in SQLite).  Python regular expressions used by the
code are embedded as deterministic left-to-right scanners over character
lists; `\d` is modelled as the ASCII digits.
-/

namespace GroceryScraper

/-- Model of a Python value as it can appear in a scraped item field:
absent/None, a string, or a number (float modelled as ℚ). -/
inductive PVal where
  | vNone : PVal
  | vStr (s : String) : PVal
  | vNum (q : ℚ) : PVal
deriving DecidableEq, Repr

/-- Python truthiness for the modelled values: None is falsy, a string is
truthy iff non-empty, a number is truthy iff non-zero. -/
def truthy : PVal → Bool
  | .vNone => false
  | .vStr s => s ≠ ""
  | .vNum q => q ≠ 0

/-- Numeric value of the leading decimal digits of a character list
(`int(...)` on an all-digit string; also the helper used to value digit
runs captured by the regex scanners). -/
def parseDigits (cs : List Char) : Nat :=
  cs.foldl (fun a c => a * 10 + (c.toNat - 48)) 0

/-- One decimal digit as a character (0 ≤ n ≤ 9 expected). -/
def digitChar (n : Nat) : Char :=
  if n = 0 then '0' else if n = 1 then '1' else if n = 2 then '2'
  else if n = 3 then '3' else if n = 4 then '4' else if n = 5 then '5'
  else if n = 6 then '6' else if n = 7 then '7' else if n = 8 then '8' else '9'

/-- Decimal rendering of a natural number as a character list. -/
def natDigits (n : Nat) : List Char :=
  if h : n < 10 then [digitChar n]
  else natDigits (n / 10) ++ [digitChar (n % 10)]
decreasing_by exact Nat.div_lt_self (Nat.lt_of_lt_of_le (by norm_num) (Nat.le_of_not_lt h)) (by norm_num)

/-- `re.sub(r'[^\d,.]', '', s)` : keep only digits, commas and dots. -/
def stripNonPrice (s : String) : List Char :=
  s.data.filter (fun c => c.isDigit || c == ',' || c == '.')

/-- `clean.replace(',', '.')`. -/
def commasToDots (cs : List Char) : List Char :=
  cs.map (fun c => if c == ',' then '.' else c)

/-- Split a character list at every `'.'` (the pieces between dots). -/
def splitOnDot : List Char → List (List Char)
  | [] => [[]]
  | '.' :: rest => [] :: splitOnDot rest
  | c :: rest =>
    match splitOnDot rest with
    | p :: ps => (c :: p) :: ps
    | [] => [[c]]

/-- Python `float(...)` restricted to strings made of digits and dots (the
only strings `clean_price` can hand it after filtering and comma
replacement): succeeds iff there is at most one dot and at least one digit,
returning the denoted non-negative decimal. -/
def pyFloatOfDigits (cs : List Char) : Option ℚ :=
  if cs.all (fun c => c.isDigit || c == '.') then
    match splitOnDot cs with
    | [a] => if a.isEmpty then none else some (parseDigits a : ℚ)
    | [a, b] =>
      if a.isEmpty && b.isEmpty then none
      else some ((parseDigits a : ℚ) + (parseDigits b : ℚ) / (10 : ℚ) ^ b.length)
    | _ => none
  else none

/-- Decimal exponent that clears the denominator of `q`, if one of at most
24 digits does (floats that reach the pipeline are finite decimals). -/
def decExp (q : ℚ) : Option Nat :=
  (List.range 25).find? (fun k => q.den ∣ 10 ^ k)

/-- Left-pad a digit string with zeros to width `k`. -/
def padZeros (cs : List Char) (k : Nat) : List Char :=
  List.replicate (k - cs.length) '0' ++ cs

/-- Python `str(...)` of a float value, modelled for finite decimals
(`str(5.0) = "5.0"`, `str(86.9) = "86.9"`); non-decimal rationals (which do
not arise from floats) fall back to a fraction rendering. -/
def qRepr (q : ℚ) : String :=
  let sign := if q < 0 then "-" else ""
  match decExp q with
  | some k =>
    let m := q.num.natAbs * 10 ^ k / q.den
    if k = 0 then sign ++ ⟨natDigits m⟩ ++ ".0"
    else sign ++ ⟨natDigits (m / 10 ^ k)⟩ ++ "." ++ ⟨padZeros (natDigits (m % 10 ^ k)) k⟩
  | none => sign ++ ⟨natDigits q.num.natAbs⟩ ++ "/" ++ ⟨natDigits q.den⟩

/-- Python `str(...)` applied to a modelled field value. -/
def pyToStr : PVal → String
  | .vNone => "None"
  | .vStr s => s
  | .vNum q => qRepr q

/-- `clean_price` from `grocery_scraper/pipelines.py` (the identical
staticmethods in `spiders/base_spider.py` and `scraper.py` are the same
function): falsy input gives None; otherwise all characters except digits,
commas and dots are stripped, commas become dots, and the result is parsed
as a float, with a parse failure giving None. -/
def clean_price (price_text : PVal) : Option ℚ :=
  if truthy price_text then
    pyFloatOfDigits (commasToDots (stripNonPrice (pyToStr price_text)))
  else none

/-- The maximal whitespace-separated words of a character list (Python
`str.split()` with no argument), built with an accumulator for the word
being read. -/
def wordsAux (cur : List Char) (acc : List (List Char)) : List Char → List (List Char)
  | [] => if cur.isEmpty then acc.reverse else (cur.reverse :: acc).reverse
  | c :: rest =>
    if c.isWhitespace then
      if cur.isEmpty then wordsAux [] acc rest else wordsAux [] (cur.reverse :: acc) rest
    else wordsAux (c :: cur) acc rest

/-- `' '.join(text.strip().split())` : collapse whitespace runs. -/
def normalizeWs (s : String) : String :=
  ⟨((wordsAux [] [] s.data).intersperse [' ']).flatten⟩

/-- `clean_text` from `grocery_scraper/pipelines.py`: falsy input gives
the empty string, otherwise whitespace is normalized. -/
def clean_text (text : PVal) : String :=
  if truthy text then normalizeWs (pyToStr text) else ""

/-- `generate_product_id` from `grocery_scraper/pipelines.py` computes the
MD5 hex digest of `f"{store}:{url}"`.  The digest itself is not embedded;
it is modelled by its preimage, which preserves exactly the property the
pipeline relies on: the identity is a deterministic function of
(store, url). -/
def generate_product_id (store url : String) : String :=
  store ++ ":" ++ url

/-- Python `str.strip()`: drop leading and trailing whitespace. -/
def pyStrip (s : String) : String :=
  ⟨(((s.data.dropWhile Char.isWhitespace).reverse).dropWhile Char.isWhitespace).reverse⟩

/-- Python `str.lower()`, applied per character (the indicators compared
against are ASCII, where this agrees with Python). -/
def pyLower (s : String) : String :=
  ⟨s.data.map Char.toLower⟩

/-- `normalize_url` from `grocery_scraper/pipelines.py`: `url.strip()`. -/
def normalize_url (url : String) : String := pyStrip url

/-- `validate_product_data` from `grocery_scraper/pipelines.py` lines
60-69: collects an error for each of name/price/store that is falsy and
reports validity as "no errors". -/
def validate_product_data (name price store : PVal) : Bool × List String :=
  let errors :=
    (if !truthy name then ["Missing name"] else []) ++
    (if !truthy price then ["Missing price"] else []) ++
    (if !truthy store then ["Missing store"] else [])
  (errors.length == 0, errors)

/-- `calculate_discount_percentage` from `grocery_scraper/pipelines.py`:
0 when either value is falsy or no discount, else the percentage. -/
def calculate_discount_percentage (original current : ℚ) : ℚ :=
  if original = 0 ∨ current = 0 ∨ original ≤ current then 0
  else (original - current) / original * 100

/-- A scraped item as the pipelines see it (an `ItemAdapter` over the
fields the pipeline stages read or write). -/
structure Item where
  name : PVal := .vNone
  price : PVal := .vNone
  store : PVal := .vNone
  category : PVal := .vNone
  subcategory : PVal := .vNone
  brand : PVal := .vNone
  description : PVal := .vNone
  original_price : PVal := .vNone
  url : Option String := none
  image_url : Option String := none
  product_id : Option String := none
  scraped_at : Option String := none
  discount_percentage : Option ℚ := none
deriving DecidableEq, Repr

/-- Truthiness of an optional string field (`adapter.get(field)`). -/
def truthyS : Option String → Bool
  | none => false
  | some s => s ≠ ""

/-- String a field contributes to `f"{store}:{url}"` via
`adapter.get(field, '')` (an absent field contributes the empty string). -/
def pvalAsStr : PVal → String
  | .vNone => ""
  | .vStr s => s
  | .vNum q => qRepr q

/-- `ValidationPipeline._clean_item_fields`, text-field pass: each of
name/category/subcategory/brand/description is whitespace-cleaned when
truthy, and left untouched otherwise. -/
def cleanTextFields (i : Item) : Item :=
  let cl := fun v => if truthy v then PVal.vStr (clean_text v) else v
  { i with name := cl i.name, category := cl i.category,
           subcategory := cl i.subcategory, brand := cl i.brand,
           description := cl i.description }

/-- `ValidationPipeline._clean_item_fields`, price pass: a truthy price is
re-parsed with `clean_price`; a parse failure or a non-positive result
raises ValueError (modelled as `none`, which the pipeline turns into a
DropItem); otherwise the parsed number replaces the raw price. -/
def cleanPriceField (i : Item) : Option Item :=
  if truthy i.price then
    match clean_price i.price with
    | none => none
    | some p => if p ≤ 0 then none else some { i with price := .vNum p }
  else some i

/-- Numeric content of a price field (the pipeline only reads it after the
price pass has stored a number there). -/
def pvalNum : PVal → ℚ
  | .vNum q => q
  | _ => 0

/-- `ValidationPipeline._clean_item_fields`, original-price pass: a truthy
original price is re-parsed; a positive parse is kept and, when the price
is truthy, yields a truthy discount percentage; any other outcome resets
the original price to None. -/
def cleanOriginalPriceField (i : Item) : Item :=
  if truthy i.original_price then
    match clean_price i.original_price with
    | some op =>
      if 0 < op then
        let i1 := { i with original_price := PVal.vNum op }
        if truthy i1.price then
          let d := calculate_discount_percentage op (pvalNum i1.price)
          if d ≠ 0 then { i1 with discount_percentage := some d } else i1
        else i1
      else { i with original_price := .vNone }
    | none => { i with original_price := .vNone }
  else i

/-- `ValidationPipeline._clean_item_fields`, URL pass: truthy url and
image_url fields are normalized (stripped). -/
def cleanUrlFields (i : Item) : Item :=
  { i with
    url := if truthyS i.url then i.url.map normalize_url else i.url,
    image_url := if truthyS i.image_url then i.image_url.map normalize_url else i.image_url }

/-- `ValidationPipeline.process_item` (pipelines.py lines 173-202): validate
the required fields, clean all fields (any exception becomes a DropItem,
modelled as `none`), fill in a missing product id from (store, url), and
stamp a scrape time.  `some` is the item passed on to the next stage. -/
def validationProcess (now : String) (i : Item) : Option Item :=
  if !(validate_product_data i.name i.price i.store).1 then none
  else
    match cleanPriceField (cleanTextFields i) with
    | none => none
    | some i2 =>
      let i3 := cleanUrlFields (cleanOriginalPriceField i2)
      let pid := generate_product_id (pvalAsStr i3.store) (i3.url.getD "")
      let i4 :=
        if truthyS i3.product_id then i3
        else { i3 with product_id := some pid }
      some (if truthyS i4.scraped_at then i4 else { i4 with scraped_at := some now })

/-- State of `DeduplicationPipeline`: the set of product ids seen this run
(as a list) and the duplicate counter. -/
structure DedupState where
  seen : List String := []
  duplicate_count : Nat := 0
deriving DecidableEq, Repr

/-- The product id `DeduplicationPipeline.process_item` keys on: the item's
own id when truthy, else one generated from (store, url). -/
def dedupIdOf (i : Item) : String :=
  match i.product_id with
  | some p => if p = "" then generate_product_id (pvalAsStr i.store) (i.url.getD "") else p
  | none => generate_product_id (pvalAsStr i.store) (i.url.getD "")

/-- `DeduplicationPipeline.process_item` (pipelines.py lines 257-276): an id
already seen increments the duplicate counter and drops the item (`none`);
a fresh id is recorded and the item passes (`some`). -/
def dedupProcess (st : DedupState) (i : Item) : DedupState × Option Item :=
  let pid := dedupIdOf i
  let i' := { i with product_id := some pid }
  if pid ∈ st.seen then
    ({ st with duplicate_count := st.duplicate_count + 1 }, none)
  else
    ({ st with seen := pid :: st.seen }, some i')

/-! ## The products table

`products(id, name NOT NULL, price NOT NULL, category, subcategory,
store NOT NULL, url, image_url, scraped_at, UNIQUE(name, store, url))`,
as created by `SimpleDB._init_db`, `Database.init_db` and
`BaseGrocerySpider.init_db`.  Rows are kept in insertion order; the
autoincrement id column is irrelevant to the claims and omitted. -/

structure ProductRow where
  name : String
  price : ℚ
  category : Option String := none
  subcategory : Option String := none
  store : String
  url : Option String := none
  image_url : Option String := none
  scraped_at : Option String := none
deriving DecidableEq, Repr

/-- A value bound to the INSERT parameters (each may be NULL). -/
structure DbProduct where
  name : Option String := none
  price : Option ℚ := none
  category : Option String := none
  subcategory : Option String := none
  store : Option String := none
  url : Option String := none
  image_url : Option String := none
  scraped_at : Option String := none
deriving DecidableEq, Repr

/-- Conflict of an existing row with an incoming key under the UNIQUE
(name, store, url) index.  SQLite's UNIQUE treats NULL as distinct from
everything, so a conflict requires the url of both sides to be non-NULL
and equal. -/
def rowConflict (nm st : String) (u : Option String) (r : ProductRow) : Bool :=
  r.name == nm && r.store == st &&
    (match u, r.url with
     | some a, some b => a == b
     | _, _ => false)

/-- One `INSERT OR REPLACE INTO products` execution: a NULL in a NOT NULL
column (name, price, store) raises, which every caller catches and skips;
otherwise rows conflicting on the unique key are replaced by the new row. -/
def insertOrReplaceProduct (t : List ProductRow) (p : DbProduct) : List ProductRow :=
  match p.name, p.price, p.store with
  | some nm, some pr, some st =>
    t.filter (fun r => !rowConflict nm st p.url r) ++
      [{ name := nm, price := pr, category := p.category,
         subcategory := p.subcategory, store := st, url := p.url,
         image_url := p.image_url, scraped_at := p.scraped_at }]
  | _, _, _ => t

/-- `SimpleDB.insert_products_batch` (pipelines.py lines 115-134): each
product is inserted with `INSERT OR REPLACE`; a per-product error is
caught and skips only that product. -/
def insert_products_batch (t : List ProductRow) (ps : List DbProduct) : List ProductRow :=
  ps.foldl insertOrReplaceProduct t

/-! ## The direct save path of `scraper.py` (ATBScraper) -/

/-- A product dict built by `ATBScraper.scrape_category`. -/
structure ScraperProduct where
  name : String
  price : ℚ
  category : Option String := none
  subcategory : Option String := none
  url : Option String := none
deriving DecidableEq, Repr

/-- An item of the ATB API response as read by `scrape_category`
(`item.get('name', '')`, `float(item.get('price', 0))`, `item.get('id')`). -/
structure AtbApiItem where
  name : Option String := none
  price : Option ℚ := none
  pid : Option String := none
deriving DecidableEq, Repr

/-- `clean_text` as the spiders apply it to a raw string. -/
def clean_textS (s : String) : String := clean_text (.vStr s)

/-- The product dict `ATBScraper.scrape_category` (scraper.py lines
329-335) appends for one API item: the name is cleaned (defaulting to the
empty string), the price defaults to 0, and no validation is applied. -/
def atbBuildProduct (base : String) (categoryName : String) (it : AtbApiItem) : ScraperProduct :=
  { name := clean_textS (it.name.getD ""),
    price := it.price.getD 0,
    category := some categoryName,
    url := some (base ++ "/product/" ++ it.pid.getD "None") }

/-- `Database.save_products` (scraper.py lines 50-77): each product dict is
written with `INSERT OR REPLACE` (category defaults to "Інше"); an error on
one product skips only that product. -/
def save_products (t : List ProductRow) (ps : List ScraperProduct) (store now : String) :
    List ProductRow :=
  ps.foldl
    (fun acc p =>
      insertOrReplaceProduct acc
        { name := some p.name, price := some p.price,
          category := some (p.category.getD "Інше"), subcategory := p.subcategory,
          store := some store, url := p.url, scraped_at := some now })
    t

/-! ## `DatabasePipeline` batching (pipelines.py lines 286-345)

The items themselves are opaque to the batching mechanism, so the state is
parametrised over the item type.  The database outcome of one batch write
is abstracted as a boolean oracle (success or raised error); the `finally`
clause clears the batch either way.  The `flushed` field is a ghost log of
every list of items handed to persistence, used to state that no item is
submitted twice. -/

structure DbPipeState (α : Type) where
  items_processed : Nat := 0
  items_saved : Nat := 0
  items_failed : Nat := 0
  batch_items : List α := []
  flushed : List (List α) := []

/-- `DatabasePipeline.batch_size`. -/
def batchSize : Nat := 100

/-- `DatabasePipeline._process_batch`: an empty batch is a no-op; otherwise
the batch is submitted once, counters are updated on success or on a raised
error, and the `finally` clause clears the batch in both cases. -/
def processBatch {α : Type} (ok : List α → Bool) (st : DbPipeState α) : DbPipeState α :=
  if st.batch_items.isEmpty then st
  else
    let st1 :=
      if ok st.batch_items then
        { st with items_saved := st.items_saved + st.batch_items.length }
      else
        { st with items_failed := st.items_failed + st.batch_items.length }
    { st1 with flushed := st.flushed ++ [st.batch_items], batch_items := [] }

/-- `DatabasePipeline.process_item`: count the item, append it to the
pending batch, and flush when the batch reaches `batch_size`. -/
def dbProcessItem {α : Type} (ok : List α → Bool) (st : DbPipeState α) (it : α) :
    DbPipeState α :=
  let st1 := { st with items_processed := st.items_processed + 1,
                       batch_items := st.batch_items ++ [it] }
  if batchSize ≤ st1.batch_items.length then processBatch ok st1 else st1

/-- `DatabasePipeline.close_spider`: flush the remaining partial batch. -/
def dbCloseSpider {α : Type} (ok : List α → Bool) (st : DbPipeState α) : DbPipeState α :=
  if st.batch_items.isEmpty then st else processBatch ok st

/-- A whole run of the database pipeline over a stream of items. -/
def dbRun {α : Type} (ok : List α → Bool) (items : List α) : DbPipeState α :=
  dbCloseSpider ok (items.foldl (dbProcessItem ok) {})

/-! ## The categories table

`categories(id, store NOT NULL, category NOT NULL, subcategory,
category_url, UNIQUE(store, category, subcategory))`. -/

structure CatRow where
  store : String
  category : String
  subcategory : Option String := none
  category_url : Option String := none
deriving DecidableEq, Repr

/-- Conflict under the UNIQUE (store, category, subcategory) index; as for
products, a NULL subcategory never conflicts (SQLite NULLs are distinct). -/
def catConflict (s c : String) (sub : Option String) (r : CatRow) : Bool :=
  r.store == s && r.category == c &&
    (match sub, r.subcategory with
     | some a, some b => a == b
     | _, _ => false)

/-- `BaseGrocerySpider.save_category_to_db` (base_spider.py lines 340-356):
`INSERT OR IGNORE INTO categories`; a row conflicting on the unique key is
ignored, anything else is appended.  Returns the table and whether a row
was inserted (`cursor.rowcount > 0`). -/
def save_category_to_db (t : List CatRow) (store categoryName : String)
    (sub url : Option String) : List CatRow × Bool :=
  if t.any (catConflict store categoryName sub) then (t, false)
  else (t ++ [{ store := store, category := categoryName,
                subcategory := sub, category_url := url }], true)

/-- `BaseGrocerySpider.clear_categories_for_store` (base_spider.py lines
358-377): `DELETE FROM categories WHERE store = ?`. -/
def clear_categories_for_store (t : List CatRow) (store : String) : List CatRow :=
  t.filter (fun r => !(r.store == store))

/-- One candidate category link surfaced by discovery: the cleaned name,
the subcategory (always None in the base and Varus discovery flows) and the
absolute URL. -/
structure CatCandidate where
  name : String
  sub : Option String := none
  url : String
deriving DecidableEq, Repr

/-- Python's `needle in hay` on strings: substring containment. -/
def substrB (needle hay : String) : Bool :=
  decide (needle.data <:+: hay.data)

/-- `BaseGrocerySpider.is_category_excluded` restricted to its URL check:
the URL is excluded iff it contains one of the configured patterns
(compared lowercased). -/
def is_category_excluded (patterns : List String) (url : String) : Bool :=
  patterns.any (fun p => substrB (pyLower p) (pyLower url))

/-- `BaseGrocerySpider.discover_categories` (base_spider.py lines 379-424):
clear the store's rows, then for each candidate link either skip it (URL
exclusion filter) or upsert it with `save_category_to_db`. -/
def discover_categories (t : List CatRow) (store : String) (patterns : List String)
    (candidates : List CatCandidate) : List CatRow :=
  candidates.foldl
    (fun acc c =>
      if is_category_excluded patterns c.url then acc
      else (save_category_to_db acc store c.name c.sub (some c.url)).1)
    (clear_categories_for_store t store)

/-! ## Pagination resolution (base_spider.py lines 589-648, varus_spider.py
lines 308-331) -/

/-- One pagination item as the selectors see it: its `href` attribute, the
text of a nested `a` element, and its own text. -/
structure PagItem where
  href : Option String := none
  aText : Option String := none
  selfText : Option String := none
deriving DecidableEq, Repr

/-- Drop a literal character sequence from the front of a list, or fail. -/
def dropLit : List Char → List Char → Option (List Char)
  | [], cs => some cs
  | _ :: _, [] => none
  | l :: ls, c :: cs => if l == c then dropLit ls cs else none

/-- `re.search(r'[?&]page=(\d+)', url)`: scan left to right for `?` or `&`
followed by the literal `page=` and at least one digit; the captured value
is the maximal digit run there. -/
def findPageParam : List Char → Option Nat
  | [] => none
  | c :: rest =>
    if c == '?' || c == '&' then
      match dropLit "page=".data rest with
      | some r2 =>
        let ds := r2.takeWhile Char.isDigit
        if ds.isEmpty then findPageParam rest else some (parseDigits ds)
      | none => findPageParam rest
    else findPageParam rest

/-- The text a standard pagination item contributes: the nested `a` text
when truthy, else the item's own text (`extract_page_numbers`, standard
branch). -/
def pagItemText (it : PagItem) : Option String :=
  if truthyS it.aText then it.aText else it.selfText

/-- The numeric label of one pagination item, when its (stripped) text is a
non-empty digit string. -/
def pagItemNumber (it : PagItem) : Option Nat :=
  match pagItemText it with
  | some s =>
    let t := pyStrip s
    if t ≠ "" && t.data.all Char.isDigit then some (parseDigits t.data) else none
  | none => none

/-- The guard of the Varus "Go To Last" special case in
`extract_page_numbers`: exactly one item whose truthy href contains
`page=`. -/
def isJumpCase (items : List PagItem) : Bool :=
  match items with
  | [it] =>
    match it.href with
    | some h => h ≠ "" && substrB "page=" h
    | none => false
  | _ => false

/-- `BaseGrocerySpider.extract_page_numbers` (base_spider.py lines
626-648): in the jump case a parsed `[?&]page=N` yields `[N]`; in every
other case (including a jump href the regex cannot parse) the numeric
labels of the items are collected. -/
def extract_page_numbers (items : List PagItem) : List Nat :=
  if isJumpCase items then
    match items with
    | [it] =>
      match findPageParam ((it.href.getD "").data) with
      | some n => [n]
      | none => items.filterMap pagItemNumber
    | _ => items.filterMap pagItemNumber
  else items.filterMap pagItemNumber

/-- The pagination surface of a category's first page: `none` when the
pagination-block selector matches nothing, otherwise the pagination items
found inside the block. -/
def PagSurface : Type := Option (List PagItem)

/-- `max(page_numbers)` (Python max of a non-empty list; 0 is never hit by
`handle_pagination`, which only takes the max of a non-empty list). -/
def maxNums (ns : List Nat) : Nat := ns.foldl Nat.max 0

/-- The total page count `BaseGrocerySpider.handle_pagination` acts on: the
maximum extracted page number when the pagination block, its items and the
extracted numbers are all non-empty; otherwise the category effectively
resolves to a single page. -/
def resolvedPageCount (s : PagSurface) : Nat :=
  match s with
  | none => 1
  | some items =>
    if items.isEmpty then 1
    else
      let nums := extract_page_numbers items
      if nums.isEmpty then 1 else maxNums nums

/-- The page numbers `handle_pagination` schedules requests for:
`range(2, last_page_num + 1)`. -/
def scheduledPages (s : PagSurface) : List Nat :=
  match s with
  | none => []
  | some items =>
    if items.isEmpty then []
    else
      let nums := extract_page_numbers items
      if nums.isEmpty then [] else List.range' 2 (maxNums nums - 1)

/-- `VarusSpider.handle_pagination` (varus_spider.py lines 308-331): only
the "Go To Last" control is consulted; a parsed `[?&]page=N` in its href
schedules pages 2..N, anything else schedules nothing. -/
def varusScheduledPages (control : Option PagItem) : List Nat :=
  match control with
  | none => []
  | some it =>
    match it.href with
    | some h =>
      if h ≠ "" then
        match findPageParam h.data with
        | some n => List.range' 2 (n - 1)
        | none => []
      else []
    | none => []

/-! ## RetryMiddleware (middlewares.py lines 185-227) -/

/-- The request meta keys the retry middleware reads or writes. -/
structure ScrapyMeta where
  retry_times : Option Nat := none
  retry_attempt : Option Nat := none
  download_delay : Option Nat := none
deriving DecidableEq, Repr

/-- `RETRY_HTTP_CODES` default of `RetryMiddleware`. -/
def retry_http_codes : List Nat := [403, 500, 502, 503, 504, 408, 429]

/-- The backoff sleep `RetryMiddleware.process_request` performs before a
request: `2 ** (retry_attempt - 1)` seconds when the meta key
`retry_attempt` is positive, nothing otherwise. -/
def retryRequestDelay (m : ScrapyMeta) : Nat :=
  let ra := m.retry_attempt.getD 0
  if ra > 0 then 2 ^ (ra - 1) else 0

/-- Outcome of `RetryMiddleware.process_response`: pass the response on, or
return a retry request carrying updated meta. -/
inductive RetryAction where
  | giveResponse : RetryAction
  | retryWith (m : ScrapyMeta) : RetryAction
deriving DecidableEq, Repr

/-- `RetryMiddleware.process_response`: a retryable status within the retry
budget produces a copy of the request with `retry_times` incremented and,
for 429/403, a raised `download_delay` scaled by the retry count; the meta
key `retry_attempt` is never written. -/
def retryProcessResponse (max_retry_times : Nat) (status : Nat) (m : ScrapyMeta) :
    RetryAction :=
  if status ∈ retry_http_codes then
    let rt := m.retry_times.getD 0 + 1
    if rt ≤ max_retry_times then
      let m1 := { m with retry_times := some rt }
      let m2 :=
        if status = 429 then { m1 with download_delay := some (min (rt * 2) 10) }
        else if status = 403 then { m1 with download_delay := some (rt * 3) }
        else m1
      .retryWith m2
    else .giveResponse
  else .giveResponse

/-! ## ATB curl scraper (atb_curl_scraper.py) -/

/-- The empty-page indicator list of `is_empty_page`. -/
def emptyIndicators : List String :=
  ["no products found", "немає товарів", "пусто", "empty-results",
   "no-results", "404", "page not found", "сторінка не знайдена"]

/-- The Cloudflare indicator list `is_empty_page` checks first. -/
def emptyCheckCfIndicators : List String :=
  ["just a moment", "enable javascript and cookies", "_cf_chl_opt",
   "cloudflare", "challenge-platform"]

/-- The blocking indicator list of `is_cloudflare_protected`. -/
def blockingIndicators : List String :=
  ["just a moment", "enable javascript and cookies", "_cf_chl_opt",
   "window._cf_chl_opt", "challenge-platform/h/g"]

/-- `ATBCurlScraper.is_empty_page` (atb_curl_scraper.py lines 159-187): a
page whose lowercased content holds a Cloudflare indicator is never
reported empty; otherwise the empty indicators decide. -/
def is_empty_page (html : String) : Bool :=
  let hl := pyLower html
  if emptyCheckCfIndicators.any (fun i => substrB i hl) then false
  else emptyIndicators.any (fun i => substrB i hl)

/-- `ATBCurlScraper.is_cloudflare_protected` (atb_curl_scraper.py lines
189-201). -/
def is_cloudflare_protected (html : String) : Bool :=
  let hl := pyLower html
  blockingIndicators.any (fun i => substrB i hl)

/-- `scrape_single_page` inside `ATBCurlScraper.scrape_category`
(atb_curl_scraper.py lines 542-555): a missing/empty response, a
Cloudflare-protected page and an empty page all yield no products; only
otherwise is extraction run.  Extraction itself is passed in as a
function, since only the classification is at issue here. -/
def scrape_single_page {α : Type} (extractProducts : String → List α)
    (html : Option String) : List α :=
  match html with
  | none => []
  | some h =>
    if h = "" then []
    else if is_cloudflare_protected h then []
    else if is_empty_page h then []
    else extractProducts h

/-- Substring containment on character lists. -/
def infixB (needle hay : List Char) : Bool :=
  decide (needle <:+: hay)

/-- Run a match-at-position attempt at every position left to right
(`re.search` order) and return the first success. -/
def scanFor (tryAt : List Char → Option ℚ) : List Char → Option ℚ
  | [] => none
  | c :: rest =>
    match tryAt (c :: rest) with
    | some q => some q
    | none => scanFor tryAt rest

/-- Match attempt, at the head of `cs`, for the two-part price patterns of
`ATBCurlScraper.parse_product_html`:
`(\d+)\.<span[^>]*>(\d+)</span>` and, with `needCoin`,
`(\d+)\.<span[^>]*class="[^"]*product-price__coin[^"]*"[^>]*>(\d+)</span>`.
The attribute constraint of the coin pattern is modelled as: the segment
before the tag-closing `>` contains `class="` and `product-price__coin`
(exact for tags whose attribute values contain no `>`). -/
def tryTwoPartAt (needCoin : Bool) (cs : List Char) : Option ℚ :=
  let ds := cs.takeWhile Char.isDigit
  if ds.isEmpty then none
  else
    match cs.drop ds.length with
    | '.' :: r2 =>
      match dropLit "<span".data r2 with
      | some r3 =>
        let seg := r3.takeWhile (fun c => c != '>')
        match r3.drop seg.length with
        | '>' :: r5 =>
          if needCoin &&
              !(infixB "class=\"".data seg && infixB "product-price__coin".data seg) then
            none
          else
            let ds2 := r5.takeWhile Char.isDigit
            if ds2.isEmpty then none
            else
              match dropLit "</span>".data (r5.drop ds2.length) with
              | some _ =>
                some ((parseDigits ds : ℚ) + (parseDigits ds2 : ℚ) / (10 : ℚ) ^ ds2.length)
              | none => none
        | _ => none
      | none => none
    | _ => none

/-- Match attempt for `(\d+[.,]\d+)\s*CUR`: a decimal with `.` or `,` as
fraction separator, optional whitespace, then the currency marker; the
captured text has its comma replaced by a dot before `float`. -/
def tryDecCurAt (cur : List Char) (cs : List Char) : Option ℚ :=
  let ds := cs.takeWhile Char.isDigit
  if ds.isEmpty then none
  else
    match cs.drop ds.length with
    | c :: r2 =>
      if c == '.' || c == ',' then
        let ds2 := r2.takeWhile Char.isDigit
        if ds2.isEmpty then none
        else
          match dropLit cur ((r2.drop ds2.length).dropWhile Char.isWhitespace) with
          | some _ =>
            some ((parseDigits ds : ℚ) + (parseDigits ds2 : ℚ) / (10 : ℚ) ^ ds2.length)
          | none => none
      else none
    | [] => none

/-- Match attempt for `(\d+)\s*CUR`. -/
def tryIntCurAt (cur : List Char) (cs : List Char) : Option ℚ :=
  let ds := cs.takeWhile Char.isDigit
  if ds.isEmpty then none
  else
    match dropLit cur ((cs.drop ds.length).dropWhile Char.isWhitespace) with
    | some _ => some (parseDigits ds : ℚ)
    | none => none

/-- The price-pattern cascade of `ATBCurlScraper.parse_product_html`
(atb_curl_scraper.py lines 296-327), patterns tried in source order with
the first match winning. -/
def atbPriceOf (html : String) : Option ℚ :=
  let cs := html.data
  match scanFor (tryTwoPartAt true) cs with
  | some q => some q
  | none =>
    match scanFor (tryTwoPartAt false) cs with
    | some q => some q
    | none =>
      match scanFor (tryDecCurAt "грн".data) cs with
      | some q => some q
      | none =>
        match scanFor (tryIntCurAt "грн".data) cs with
        | some q => some q
        | none =>
          match scanFor (tryDecCurAt "₴".data) cs with
          | some q => some q
          | none => scanFor (tryIntCurAt "₴".data) cs

/-- `ATBCurlScraper.parse_product_html` (atb_curl_scraper.py lines
268-375).  The name/url/image regex cascades are passed in as functions
(the claimed behaviour concerns the price); the price cascade is
`atbPriceOf`.  A falsy name or a falsy price (no parse, or a parse of 0)
returns None — the card is dropped, not emitted. -/
def parse_product_html (nameOf urlOf imgOf : String → Option String)
    (now : String) (html : String) (categoryName : String) : Option DbProduct :=
  match nameOf html with
  | none => none
  | some nm =>
    if nm = "" then none
    else
      match atbPriceOf html with
      | none => none
      | some p =>
        if p = 0 then none
        else
          some { name := some nm, price := some p, category := some categoryName,
                 subcategory := none, store := some "ATB", url := urlOf html,
                 image_url := imgOf html, scraped_at := some now }

/-! ## Helper lemmas -/

theorem substrB_iff (a b : String) : substrB a b = true ↔ a.data <:+: b.data := by
  simp [substrB]

theorem substrB_trans {a b c : String} (h1 : substrB a b = true)
    (h2 : substrB b c = true) : substrB a c = true := by
  rw [substrB_iff] at *
  exact h1.trans h2

theorem pyFloatOfDigits_nonneg {cs : List Char} {q : ℚ}
    (h : pyFloatOfDigits cs = some q) : 0 ≤ q := by
  unfold pyFloatOfDigits at h
  split at h
  · split at h
    · split at h
      · exact absurd h (by simp)
      · obtain rfl : ((parseDigits _ : ℚ)) = q := by simpa using h
        positivity
    · split at h
      · exact absurd h (by simp)
      · obtain rfl : ((parseDigits _ : ℚ) + (parseDigits _ : ℚ) / (10:ℚ) ^ _) = q := by
          simpa using h
        positivity
    · exact absurd h (by simp)
  · exact absurd h (by simp)

/-! ## C9 -/

/-- C9: `clean_price` is total (the embedding is a total function: the
`try/except` of the source catches the only possible failure, the float
parse, and returns None) and its result, when a number, is non-negative:
every character other than digits, commas and dots — a minus sign
included — is stripped before conversion. -/
theorem c9_clean_price_total_nonneg (v : PVal) (q : ℚ)
    (h : clean_price v = some q) : 0 ≤ q := by
  unfold clean_price at h
  split at h
  · exact pyFloatOfDigits_nonneg h
  · exact absurd h (by simp)

theorem c9_clean_price_total_nonneg_witness :
    clean_price (.vStr "-5 грн") = some 5 ∧ (0:ℚ) ≤ 5 :=
  ⟨by decide, c9_clean_price_total_nonneg (.vStr "-5 грн") 5 (by decide)⟩

/-! ## C5 -/

/-- C5: the exponential backoff never happens in `RetryMiddleware`.  A 429
response on a fresh request yields a retry request whose meta carries
`retry_times = 1` (and a raised download delay), but the backoff sleep in
`process_request` reads the meta key `retry_attempt`, which no code path
ever writes — so the delay slept before the retry is 0 seconds, not the
`2 ** (retry_times - 1) = 1` second the code's own comment ("Exponential
backoff: 1s, 2s, 4s") and the claim describe. -/
theorem c5_retry_backoff_is_zero :
    retryProcessResponse 3 429 {} =
      .retryWith { retry_times := some 1, download_delay := some 2 } ∧
    retryRequestDelay { retry_times := some 1, download_delay := some 2 } = 0 ∧
    (2:Nat) ^ (1 - 1) ≠ 0 := by
  decide

/-! ## C7 -/

/-- C7 (amended): a page whose content holds a challenge fingerprint is
classified blocked and never empty — `is_empty_page` returns false
whenever `is_cloudflare_protected` returns true.  However, such a page is
not retried or escalated by `scrape_single_page`: it yields the empty
product list, exactly as an empty page does, so the page contributes zero
products to the category. -/
theorem c7_blocked_never_empty {α : Type} (extractProducts : String → List α)
    (html : String) (h : is_cloudflare_protected html = true) :
    is_empty_page html = false ∧
    scrape_single_page extractProducts (some html) = [] := by
  constructor
  · unfold is_cloudflare_protected at h
    unfold is_empty_page
    rw [if_pos]
    simp only [blockingIndicators, List.any_cons, List.any_nil, Bool.or_eq_true,
      Bool.or_false] at h
    simp only [emptyCheckCfIndicators, List.any_cons, List.any_nil, Bool.or_eq_true,
      Bool.or_false]
    rcases h with h | h | h | h | h
    · exact Or.inl h
    · exact Or.inr (Or.inl h)
    · exact Or.inr (Or.inr (Or.inl h))
    · exact Or.inr (Or.inr (Or.inl (substrB_trans (by decide) h)))
    · exact Or.inr (Or.inr (Or.inr (Or.inr (substrB_trans (by decide) h))))
  · simp only [scrape_single_page]
    by_cases he : html = ""
    · simp [he]
    · simp [he, h]

theorem c7_blocked_never_empty_witness :
    is_empty_page "Just a moment" = false ∧
    scrape_single_page (fun _ => [(1:Nat)]) (some "Just a moment") = [] :=
  c7_blocked_never_empty (fun _ => [(1:Nat)]) "Just a moment" (by decide)

/-- C7 counterexample to the claim as stated: the concrete
challenge-fingerprint page "Just a moment" is classified blocked and not
empty, yet `scrape_single_page` neither retries nor escalates it — it
returns the empty product list even when the extractor would have found a
product, which is the same observable outcome as a genuinely empty page
("немає товарів"): the category page is recorded as contributing zero
products. -/
theorem c7_counterexample :
    is_cloudflare_protected "Just a moment" = true ∧
    is_empty_page "Just a moment" = false ∧
    scrape_single_page (fun _ => [(1:Nat)]) (some "Just a moment") = [] ∧
    scrape_single_page (fun _ => [(1:Nat)]) (some "немає товарів") = [] := by
  decide

/-! ## C8 -/

/-- C8: price parsing maps the two-fragment rendering `86.<span>90</span>`
to 86.90 and the comma-decimal text `149,50 грн` to 149.50 — both through
`clean_price` (used by the spiders and the validation pipeline) and
through the pattern cascade of `ATBCurlScraper.parse_product_html`; and
when no price can be parsed from the text, `parse_product_html` drops the
card (returns None) and the validation pipeline drops the item, so it is
never emitted. -/
theorem c8_price_parsing :
    clean_price (.vStr "86.<span>90</span>") = some (869/10) ∧
    clean_price (.vStr "149,50 грн") = some (299/2) ∧
    atbPriceOf "86.<span>90</span>" = some (869/10) ∧
    atbPriceOf "149,50 грн" = some (299/2) ∧
    (∀ nameOf urlOf imgOf now html categoryName, atbPriceOf html = none →
      parse_product_html nameOf urlOf imgOf now html categoryName = none) ∧
    (∀ now i, truthy i.price = true → clean_price i.price = none →
      validationProcess now i = none) := by
  refine ⟨?_, ?_, ?_, ?_, ?_, ?_⟩
  · have e : clean_price (.vStr "86.<span>90</span>") =
        some ((parseDigits ['8','6'] : ℚ) + (parseDigits ['9','0'] : ℚ) / (10:ℚ) ^ (2:ℕ)) := rfl
    rw [e, show parseDigits ['8','6'] = 86 from by decide,
        show parseDigits ['9','0'] = 90 from by decide]
    norm_num
  · have e : clean_price (.vStr "149,50 грн") =
        some ((parseDigits ['1','4','9'] : ℚ) + (parseDigits ['5','0'] : ℚ) / (10:ℚ) ^ (2:ℕ)) := rfl
    rw [e, show parseDigits ['1','4','9'] = 149 from by decide,
        show parseDigits ['5','0'] = 50 from by decide]
    norm_num
  · have e : atbPriceOf "86.<span>90</span>" =
        some ((parseDigits ['8','6'] : ℚ) + (parseDigits ['9','0'] : ℚ) / (10:ℚ) ^ (2:ℕ)) := rfl
    rw [e, show parseDigits ['8','6'] = 86 from by decide,
        show parseDigits ['9','0'] = 90 from by decide]
    norm_num
  · have e : atbPriceOf "149,50 грн" =
        some ((parseDigits ['1','4','9'] : ℚ) + (parseDigits ['5','0'] : ℚ) / (10:ℚ) ^ (2:ℕ)) := rfl
    rw [e, show parseDigits ['1','4','9'] = 149 from by decide,
        show parseDigits ['5','0'] = 50 from by decide]
    norm_num
  · intro nameOf urlOf imgOf now html categoryName h
    unfold parse_product_html
    cases nameOf html with
    | none => rfl
    | some nm =>
      by_cases he : nm = ""
      · simp [he]
      · simp [he, h]
  · intro now i h h2
    have hc : cleanPriceField (cleanTextFields i) = none := by
      have hp : (cleanTextFields i).price = i.price := rfl
      simp [cleanPriceField, hp, h, h2]
    simp [validationProcess, hc]

theorem c8_price_parsing_witness :
    parse_product_html (fun _ => some "X") (fun _ => none) (fun _ => none)
      "now" "no price here" "cat" = none ∧
    validationProcess "now" { name := .vStr "Milk", price := .vStr "грн", store := .vStr "ATB" } = none :=
  ⟨c8_price_parsing.2.2.2.2.1 (fun _ => some "X") (fun _ => none) (fun _ => none)
     "now" "no price here" "cat" (by decide),
   c8_price_parsing.2.2.2.2.2 "now"
     { name := .vStr "Milk", price := .vStr "грн", store := .vStr "ATB" }
     (by decide) (by decide)⟩

/-! ## C3 -/

/-- C3: for two items carrying the same (store, url) pair — with no
spider-supplied product id, which no spider in the repository sets — the
deduplication stage passes the first on, drops the second, and increments
the duplicate counter by exactly one, provided their shared identity has
not been seen earlier in the run; and the identity used is the
deterministic `generate_product_id` of (store, url) alone. -/
theorem c3_dedup_exactly_one (st : DedupState) (i1 i2 : Item)
    (h1 : i1.product_id = none ∨ i1.product_id = some "")
    (h2 : i2.product_id = none ∨ i2.product_id = some "")
    (hs : i1.store = i2.store) (hu : i1.url = i2.url)
    (hnew : dedupIdOf i1 ∉ st.seen) :
    (dedupProcess st i1).2.isSome = true ∧
    (dedupProcess (dedupProcess st i1).1 i2).2 = none ∧
    (dedupProcess (dedupProcess st i1).1 i2).1.duplicate_count = st.duplicate_count + 1 ∧
    dedupIdOf i1 = generate_product_id (pvalAsStr i1.store) (i1.url.getD "") := by
  have e1 : dedupIdOf i1 = generate_product_id (pvalAsStr i1.store) (i1.url.getD "") := by
    rcases h1 with h | h <;> simp [dedupIdOf, h]
  have e2 : dedupIdOf i2 = generate_product_id (pvalAsStr i2.store) (i2.url.getD "") := by
    rcases h2 with h | h <;> simp [dedupIdOf, h]
  have eq12 : dedupIdOf i2 = dedupIdOf i1 := by rw [e1, e2, hs, hu]
  have hp1 : dedupProcess st i1 =
      ({ st with seen := dedupIdOf i1 :: st.seen }, some { i1 with product_id := some (dedupIdOf i1) }) := by
    simp [dedupProcess, hnew]
  refine ⟨?_, ?_, ?_, e1⟩
  · rw [hp1]
    rfl
  · rw [hp1]
    simp [dedupProcess, eq12]
  · rw [hp1]
    simp [dedupProcess, eq12]

theorem c3_dedup_exactly_one_witness :
    (dedupProcess {} { store := .vStr "ATB", url := some "u" }).2.isSome = true ∧
    (dedupProcess (dedupProcess {} { store := .vStr "ATB", url := some "u" }).1
      { store := .vStr "ATB", url := some "u", name := .vStr "other" }).2 = none ∧
    (dedupProcess (dedupProcess {} { store := .vStr "ATB", url := some "u" }).1
      { store := .vStr "ATB", url := some "u", name := .vStr "other" }).1.duplicate_count = 0 + 1 ∧
    dedupIdOf { store := .vStr "ATB", url := some "u" } =
      generate_product_id (pvalAsStr (PVal.vStr "ATB")) ((some "u").getD "") :=
  c3_dedup_exactly_one {} { store := .vStr "ATB", url := some "u" }
    { store := .vStr "ATB", url := some "u", name := .vStr "other" }
    (Or.inl rfl) (Or.inl rfl) rfl rfl (by decide)

/-! ## C4 -/

/-- C4: pagination resolution on a category's first page.  (a) A single
"jump to last page" control whose href embeds `[?&]page=N` resolves to
exactly N and schedules pages 2..N.  (b) Otherwise the maximum numeric
label among the visible pagination entries is used (illustrated by labels
1..5 resolving to 5).  (c) With no pagination surface (no pagination
block, or no items in it) the category resolves to 1 and no page beyond
page 1 is scheduled.  The Varus-specific override consults only the jump
control: a parsed href schedules 2..N, anything else schedules nothing. -/
theorem c4_pagination_resolution :
    (∀ it h n, it.href = some h → h ≠ "" → substrB "page=" h = true →
      findPageParam h.data = some n →
      resolvedPageCount (some [it]) = n ∧
      scheduledPages (some [it]) = List.range' 2 (n - 1)) ∧
    (∀ items, isJumpCase items = false → items ≠ [] →
      items.filterMap pagItemNumber ≠ [] →
      resolvedPageCount (some items) = maxNums (items.filterMap pagItemNumber) ∧
      scheduledPages (some items) =
        List.range' 2 (maxNums (items.filterMap pagItemNumber) - 1)) ∧
    (resolvedPageCount (none : PagSurface) = 1 ∧
      scheduledPages (none : PagSurface) = [] ∧
      resolvedPageCount (some ([] : List PagItem)) = 1 ∧
      scheduledPages (some ([] : List PagItem)) = []) ∧
    (resolvedPageCount (some [⟨none, some "1", none⟩, ⟨none, some "2", none⟩,
        ⟨none, some "3", none⟩, ⟨none, some "4", none⟩, ⟨none, some "5", none⟩]) = 5 ∧
      scheduledPages (some [⟨none, some "1", none⟩, ⟨none, some "2", none⟩,
        ⟨none, some "3", none⟩, ⟨none, some "4", none⟩, ⟨none, some "5", none⟩]) =
        [2, 3, 4, 5]) ∧
    (∀ it h n, it.href = some h → h ≠ "" → findPageParam h.data = some n →
      varusScheduledPages (some it) = List.range' 2 (n - 1)) ∧
    varusScheduledPages none = [] := by
  refine ⟨?_, ?_, ⟨rfl, rfl, rfl, rfl⟩, by decide, ?_, rfl⟩
  · intro it h n hh hne hsub hfind
    have hj : isJumpCase [it] = true := by simp [isJumpCase, hh, hne, hsub]
    have he : extract_page_numbers [it] = [n] := by
      simp [extract_page_numbers, hj, hh, hfind]
    have hm : maxNums [n] = n := by simp [maxNums]
    constructor
    · simp [resolvedPageCount, he, hm]
    · simp [scheduledPages, he, hm]
  · intro items hj hnon hnums
    have he : extract_page_numbers items = items.filterMap pagItemNumber := by
      simp [extract_page_numbers, hj]
    have hie : items.isEmpty = false := by
      simpa [List.isEmpty_iff] using hnon
    constructor
    · simp [resolvedPageCount, he, hie, hnums]
    · simp [scheduledPages, he, hie, hnums]
  · intro it h n hh hne hfind
    simp [varusScheduledPages, hh, hne, hfind]

theorem c4_pagination_resolution_witness :
    resolvedPageCount (some [⟨some "/catalog?page=17", none, none⟩]) = 17 ∧
    scheduledPages (some [⟨some "/catalog?page=17", none, none⟩]) = List.range' 2 16 ∧
    varusScheduledPages (some ⟨some "/c?page=4", none, none⟩) = List.range' 2 3 :=
  ⟨(c4_pagination_resolution.1 ⟨some "/catalog?page=17", none, none⟩ "/catalog?page=17" 17
      rfl (by decide) (by decide) (by decide)).1,
   (c4_pagination_resolution.1 ⟨some "/catalog?page=17", none, none⟩ "/catalog?page=17" 17
      rfl (by decide) (by decide) (by decide)).2,
   c4_pagination_resolution.2.2.2.2.1 ⟨some "/c?page=4", none, none⟩ "/c?page=4" 4
      rfl (by decide) (by decide)⟩

/-! ## C10 -/

/-- Invariant of the database pipeline after processing a given stream:
the pending batch is below the flush threshold, the flushed batches plus
the pending batch are exactly the processed items in order, and every
batch flushed from `process_item` had exactly the flush size. -/
def dbInv {α : Type} (processed : List α) (st : DbPipeState α) : Prop :=
  st.batch_items.length < batchSize ∧
  st.flushed.flatten ++ st.batch_items = processed ∧
  ∀ b ∈ st.flushed, b.length = batchSize

theorem processBatch_flushed {α : Type} (ok : List α → Bool) (st : DbPipeState α) :
    (processBatch ok st).flushed =
      if st.batch_items.isEmpty then st.flushed else st.flushed ++ [st.batch_items] := by
  unfold processBatch
  split
  · simp [*]
  · simp [*]

theorem processBatch_batch_items {α : Type} (ok : List α → Bool) (st : DbPipeState α) :
    (processBatch ok st).batch_items =
      if st.batch_items.isEmpty then st.batch_items else [] := by
  unfold processBatch
  split
  · simp [*]
  · simp [*]

theorem dbProcessItem_inv {α : Type} (ok : List α → Bool) (pref : List α)
    (st : DbPipeState α) (it : α) (h : dbInv pref st) :
    dbInv (pref ++ [it]) (dbProcessItem ok st it) := by
  obtain ⟨hlen, heq, hall⟩ := h
  unfold dbProcessItem
  dsimp only
  split
  · rename_i hge
    have hne : (st.batch_items ++ [it]).isEmpty = false := by
      simp
    refine ⟨?_, ?_, ?_⟩
    · rw [processBatch_batch_items]
      simp [hne, batchSize]
    · rw [processBatch_flushed, processBatch_batch_items]
      simp only [hne, if_false]
      simp [← heq]
    · rw [processBatch_flushed]
      simp only [hne, if_false]
      intro b hb
      rcases List.mem_append.1 hb with hb | hb
      · exact hall b hb
      · have hb' : b = st.batch_items ++ [it] := by simpa using hb
        subst hb'
        have : st.batch_items.length + 1 ≤ batchSize := hlen
        have h2 : batchSize ≤ st.batch_items.length + 1 := by simpa using hge
        simp only [List.length_append, List.length_cons, List.length_nil]
        omega
  · rename_i hlt
    refine ⟨?_, ?_, hall⟩
    · simp only [List.length_append, List.length_cons, List.length_nil]
      simpa using hlt
    · simp [← heq]

theorem dbFoldl_inv {α : Type} (ok : List α → Bool) (items : List α) :
    ∀ (pref : List α) (st : DbPipeState α), dbInv pref st →
      dbInv (pref ++ items) (items.foldl (dbProcessItem ok) st) := by
  induction items with
  | nil => intro pref st h; simpa using h
  | cons it rest ih =>
    intro pref st h
    have h2 := ih (pref ++ [it]) (dbProcessItem ok st it) (dbProcessItem_inv ok pref st it h)
    simpa using h2

/-- C10: the database pipeline's pending batch always holds fewer than 100
items between `process_item` calls; every batch flushed from
`process_item` holds exactly 100 items; and over a whole run (all items
processed, then the spider closed) the concatenation of the batches handed
to persistence is exactly the item stream — so each item is submitted to
persistence exactly once by the batching mechanism, and the batch list is
empty at the end, the `finally` clause having cleared it after every flush
attempt whether the write succeeded (`ok`) or raised. -/
theorem c10_batch_invariant {α : Type} (ok : List α → Bool) (items : List α) :
    (items.foldl (dbProcessItem ok) {}).batch_items.length < batchSize ∧
    (∀ b ∈ (items.foldl (dbProcessItem ok) {}).flushed, b.length = batchSize) ∧
    (dbRun ok items).flushed.flatten = items ∧
    (dbRun ok items).batch_items = [] := by
  have h0 : dbInv ([] : List α) ({} : DbPipeState α) := by
    refine ⟨by simp [batchSize], by simp, by simp⟩
  have hinv := dbFoldl_inv ok items [] {} h0
  rw [List.nil_append] at hinv
  obtain ⟨hlen, heq, hall⟩ := hinv
  refine ⟨hlen, hall, ?_, ?_⟩
  · unfold dbRun dbCloseSpider
    split
    · rename_i hemp
      rw [List.isEmpty_iff] at hemp
      rw [hemp, List.append_nil] at heq
      exact heq
    · rename_i hemp
      rw [processBatch_flushed]
      rw [Bool.not_eq_true, ← Bool.not_eq_true] at hemp
      simp only [List.isEmpty_iff] at hemp ⊢
      split
      · rename_i h2
        exact absurd h2 (by simpa [List.isEmpty_iff] using hemp)
      · simpa using heq
  · unfold dbRun dbCloseSpider
    split
    · rename_i hemp
      exact List.isEmpty_iff.1 (by simpa using hemp)
    · rw [processBatch_batch_items]
      split
      · rename_i h2
        exact List.isEmpty_iff.1 h2
      · rfl

set_option maxRecDepth 8000 in
theorem c10_batch_invariant_witness :
    (dbRun (fun _ => true) (List.range 205)).flushed.flatten = List.range 205 ∧
    (List.range 100).length = batchSize :=
  ⟨(c10_batch_invariant (fun _ => true) (List.range 205)).2.2.1,
   (c10_batch_invariant (fun _ => true) (List.range 205)).2.1 (List.range 100) (by decide)⟩

/-! ## C1 -/

theorem validate_fst_iff (n p s : PVal) :
    (validate_product_data n p s).1 = true ↔
      truthy n = true ∧ truthy p = true ∧ truthy s = true := by
  cases hn : truthy n <;> cases hp : truthy p <;> cases hs : truthy s <;>
    simp [validate_product_data, hn, hp, hs]

theorem cleanOriginalPriceField_price (i : Item) :
    (cleanOriginalPriceField i).price = i.price := by
  unfold cleanOriginalPriceField
  dsimp only
  repeat' split
  all_goals rfl

theorem cleanUrlFields_price (i : Item) : (cleanUrlFields i).price = i.price := rfl

/-- C1 (amended): every item that survives the validation pipeline carries
a strictly positive numeric price (which `DatabasePipeline` then persists
unchanged).  The original claim fails in two ways shown by
`c1_counterexample`: the validated name may be the empty string, and the
direct ATB save path persists unvalidated records. -/
theorem c1_pipeline_price_positive (now : String) (i i' : Item)
    (h : validationProcess now i = some i') :
    ∃ q, i'.price = PVal.vNum q ∧ 0 < q := by
  unfold validationProcess at h
  split at h
  · exact absurd h (by simp)
  · rename_i hval
    have hv : (validate_product_data i.name i.price i.store).1 = true := by
      revert hval
      cases (validate_product_data i.name i.price i.store).1 <;> simp
    have htp : truthy i.price = true := ((validate_fst_iff _ _ _).1 hv).2.1
    cases hc : cleanPriceField (cleanTextFields i) with
    | none => rw [hc] at h; exact absurd h (by simp)
    | some i2 =>
      have hp2 : ∃ p, i2.price = PVal.vNum p ∧ 0 < p := by
        unfold cleanPriceField at hc
        have htp' : truthy (cleanTextFields i).price = true := htp
        rw [if_pos htp'] at hc
        cases hcp : clean_price (cleanTextFields i).price with
        | none => simp only [hcp] at hc; exact absurd hc (by simp)
        | some p =>
          simp only [hcp] at hc
          split at hc
          · exact absurd hc (by simp)
          · rename_i hle
            refine ⟨p, ?_, not_le.1 hle⟩
            have he : ({ cleanTextFields i with price := PVal.vNum p } : Item) = i2 := by
              simpa using hc
            rw [← he]
      obtain ⟨p, hip, hpos⟩ := hp2
      refine ⟨p, ?_, hpos⟩
      simp only [hc] at h
      have hX := Option.some.inj h
      rw [← hX, ← hip]
      have h3 : (cleanUrlFields (cleanOriginalPriceField i2)).price = i2.price := by
        rw [cleanUrlFields_price, cleanOriginalPriceField_price]
      repeat' split
      all_goals simp [h3]

theorem c1_pipeline_price_positive_witness :
    ∃ i', validationProcess "now"
        { name := .vStr "Milk", price := .vStr "10 грн", store := .vStr "ATB", url := some "u" } =
        some i' ∧ ∃ q, i'.price = PVal.vNum q ∧ 0 < q := by
  have hs : (validationProcess "now"
      { name := .vStr "Milk", price := .vStr "10 грн", store := .vStr "ATB", url := some "u" }).isSome = true := by
    decide
  refine ⟨_, (Option.some_get hs).symm,
    c1_pipeline_price_positive "now" _ _ (Option.some_get hs).symm⟩

/-- C1 counterexample to the claim as stated.  First conjunct: the direct
ATB save path (`ATBScraper.scrape_category` feeding
`Database.save_products`) persists, for an API item with no name and no
price, a row whose price is 0 and whose name is the empty string — both
sides of the invariant violated at once.  Second conjunct: even the
validation pipeline lets a whitespace-only name through (it is truthy
before cleaning) and stores it cleaned to the empty string. -/
theorem c1_counterexample :
    (save_products [] [atbBuildProduct "https://www.atbmarket.com" "Бакалія" {}] "ATB" "now").map
        (fun r => (r.name, r.price)) = [("", 0)] ∧
    (validationProcess "now"
        { name := .vStr " ", price := .vStr "10 грн", store := .vStr "ATB", url := some "u" }).map
        Item.name = some (.vStr "") := by
  constructor
  · decide
  · decide

/-! ## C2 -/

/-- Two rows collide on the UNIQUE (name, store, url) index of the
products table (which requires a non-NULL url on both sides). -/
def productKeyClash (a b : ProductRow) : Prop :=
  a.name = b.name ∧ a.store = b.store ∧ a.url = b.url ∧ a.url ≠ none

/-- A products table as SQLite maintains it: the unique index holds, so no
two rows collide. -/
def wfProducts (t : List ProductRow) : Prop :=
  t.Pairwise (fun a b => ¬productKeyClash a b)

/-- The key (name, store, url) with non-NULL url is present in a table. -/
def keyInTable (nm st u : String) (t : List ProductRow) : Prop :=
  ∃ r ∈ t, r.name = nm ∧ r.store = st ∧ r.url = some u

theorem rowConflict_some_iff (nm st u : String) (r : ProductRow) :
    rowConflict nm st (some u) r = true ↔
      r.name = nm ∧ r.store = st ∧ r.url = some u := by
  cases hu : r.url <;> simp [rowConflict, hu] <;> tauto

theorem insertOrReplaceProduct_full (t : List ProductRow) (p : DbProduct)
    {nm : String} {pr : ℚ} {st : String} (hn : p.name = some nm)
    (hpr : p.price = some pr) (hs : p.store = some st) :
    insertOrReplaceProduct t p =
      t.filter (fun r => !rowConflict nm st p.url r) ++
        [{ name := nm, price := pr, category := p.category,
           subcategory := p.subcategory, store := st, url := p.url,
           image_url := p.image_url, scraped_at := p.scraped_at }] := by
  unfold insertOrReplaceProduct
  rw [hn, hpr, hs]

theorem insertOrReplaceProduct_skip (t : List ProductRow) (p : DbProduct)
    (h : p.name = none ∨ p.price = none ∨ p.store = none) :
    insertOrReplaceProduct t p = t := by
  unfold insertOrReplaceProduct
  rcases h with h | h | h
  · rw [h]
  · rw [h]; cases p.name <;> rfl
  · rw [h]; cases p.name <;> cases p.price <;> rfl

theorem length_filter_not_add_countP {α : Type} (p : α → Bool) (l : List α) :
    (l.filter (fun a => !p a)).length + l.countP p = l.length := by
  induction l with
  | nil => rfl
  | cons a l ih =>
    cases hp : p a <;> simp [List.filter_cons, List.countP_cons, hp] <;> omega

theorem wf_insertOrReplaceProduct (t : List ProductRow) (p : DbProduct)
    (hwf : wfProducts t) : wfProducts (insertOrReplaceProduct t p) := by
  cases hn : p.name with
  | none => rw [insertOrReplaceProduct_skip t p (Or.inl hn)]; exact hwf
  | some nm =>
  cases hpr : p.price with
  | none => rw [insertOrReplaceProduct_skip t p (Or.inr (Or.inl hpr))]; exact hwf
  | some pr =>
  cases hs : p.store with
  | none => rw [insertOrReplaceProduct_skip t p (Or.inr (Or.inr hs))]; exact hwf
  | some st =>
  rw [insertOrReplaceProduct_full t p hn hpr hs]
  unfold wfProducts
  rw [List.pairwise_append]
  refine ⟨List.Pairwise.sublist (List.filter_sublist t) hwf,
    List.pairwise_singleton _ _, ?_⟩
  intro a ha b hb
  simp only [List.mem_singleton] at hb
  subst hb
  rw [List.mem_filter] at ha
  rintro ⟨hnm', hst', hu', hnn⟩
  simp only at hnm' hst' hu' hnn
  cases hu2 : p.url with
  | none =>
    first
    | exact hnn hu'
    | exact hnn (hu'.trans hu2)
  | some u =>
    apply absurd ha.2
    simp only [Bool.not_eq_true', Bool.not_eq_false]
    rw [hu2] at hu' ⊢
    rw [rowConflict_some_iff]
    exact ⟨hnm', hst', hu'⟩

theorem keyInTable_insertOrReplaceProduct (nm st u : String)
    (t : List ProductRow) (p : DbProduct) (h : keyInTable nm st u t) :
    keyInTable nm st u (insertOrReplaceProduct t p) := by
  cases hn : p.name with
  | none => rw [insertOrReplaceProduct_skip t p (Or.inl hn)]; exact h
  | some pnm =>
  cases hpr : p.price with
  | none => rw [insertOrReplaceProduct_skip t p (Or.inr (Or.inl hpr))]; exact h
  | some ppr =>
  cases hs : p.store with
  | none => rw [insertOrReplaceProduct_skip t p (Or.inr (Or.inr hs))]; exact h
  | some pst =>
  rw [insertOrReplaceProduct_full t p hn hpr hs]
  obtain ⟨r, hr, h1, h2, h3⟩ := h
  by_cases hc : rowConflict pnm pst p.url r = true
  · cases hu2 : p.url with
    | none => rw [hu2] at hc; simp [rowConflict] at hc
    | some pu =>
      rw [hu2] at hc
      rw [rowConflict_some_iff] at hc
      refine ⟨_, List.mem_append_right _ (List.mem_singleton_self _), ?_, ?_, ?_⟩
      · show pnm = nm
        rw [← hc.1, h1]
      · show pst = st
        rw [← hc.2.1, h2]
      · show some pu = some u
        rw [← hc.2.2, h3]
  · exact ⟨r, List.mem_append_left _ (List.mem_filter.2 ⟨hr, by simp [hc]⟩), h1, h2, h3⟩

theorem keyInTable_insert_self (t : List ProductRow) (p : DbProduct)
    {nm : String} {pr : ℚ} {st : String} {u : String} (hn : p.name = some nm)
    (hpr : p.price = some pr) (hs : p.store = some st) (hu : p.url = some u) :
    keyInTable nm st u (insertOrReplaceProduct t p) := by
  rw [insertOrReplaceProduct_full t p hn hpr hs]
  exact ⟨_, List.mem_append_right _ (List.mem_singleton_self _), rfl, rfl, hu⟩

theorem countP_conflict_of_key (nm st u : String) (t : List ProductRow)
    (hwf : wfProducts t) (hk : keyInTable nm st u t) :
    t.countP (rowConflict nm st (some u)) = 1 := by
  induction t with
  | nil => obtain ⟨r, hr, _⟩ := hk; exact absurd hr (List.not_mem_nil r)
  | cons r rest ih =>
    rw [List.countP_cons]
    by_cases hc : rowConflict nm st (some u) r = true
    · rw [if_pos hc]
      have h0 : rest.countP (rowConflict nm st (some u)) = 0 := by
        rw [List.countP_eq_zero]
        intro a ha hca
        rw [rowConflict_some_iff] at hc hca
        have hcl : productKeyClash r a :=
          ⟨by rw [hc.1, hca.1], by rw [hc.2.1, hca.2.1],
           by rw [hc.2.2, hca.2.2], by rw [hc.2.2]; simp⟩
        exact (List.pairwise_cons.1 hwf).1 a ha hcl
      rw [h0]
    · rw [if_neg hc, Nat.add_zero]
      obtain ⟨r0, hr0, h1, h2, h3⟩ := hk
      rcases List.mem_cons.1 hr0 with rfl | hr0'
      · exact absurd ((rowConflict_some_iff nm st u r0).2 ⟨h1, h2, h3⟩) hc
      · exact ih (List.pairwise_cons.1 hwf).2 ⟨r0, hr0', h1, h2, h3⟩

theorem insertOrReplace_length_of_key (t : List ProductRow) (p : DbProduct)
    {nm : String} {pr : ℚ} {st : String} {u : String} (hn : p.name = some nm)
    (hpr : p.price = some pr) (hs : p.store = some st) (hu : p.url = some u)
    (hwf : wfProducts t) (hk : keyInTable nm st u t) :
    (insertOrReplaceProduct t p).length = t.length := by
  rw [insertOrReplaceProduct_full t p hn hpr hs]
  rw [List.length_append, List.length_singleton, hu]
  have hcnt := countP_conflict_of_key nm st u t hwf hk
  have hlen := length_filter_not_add_countP (rowConflict nm st (some u)) t
  omega

theorem keyInTable_batch (nm st u : String) (ps : List DbProduct) :
    ∀ t : List ProductRow, keyInTable nm st u t →
      keyInTable nm st u (insert_products_batch t ps) := by
  induction ps with
  | nil => exact fun t h => h
  | cons p rest ih =>
    exact fun t h => ih _ (keyInTable_insertOrReplaceProduct nm st u t p h)

theorem wf_batch (ps : List DbProduct) :
    ∀ t : List ProductRow, wfProducts t →
      wfProducts (insert_products_batch t ps) := by
  induction ps with
  | nil => exact fun t h => h
  | cons p rest ih =>
    exact fun t h => ih _ (wf_insertOrReplaceProduct t p h)

theorem keyInTable_batch_establish (ps : List DbProduct) :
    ∀ (t : List ProductRow) (p : DbProduct), p ∈ ps →
      ∀ nm pr st u, p.name = some nm → p.price = some pr →
        p.store = some st → p.url = some u →
        keyInTable nm st u (insert_products_batch t ps) := by
  induction ps with
  | nil => intro t p hp; exact absurd hp (List.not_mem_nil p)
  | cons q rest ih =>
    intro t p hp nm pr st u hn hpr hs hu
    rcases List.mem_cons.1 hp with rfl | hp'
    · exact keyInTable_batch nm st u rest _ (keyInTable_insert_self t p hn hpr hs hu)
    · exact ih _ p hp' nm pr st u hn hpr hs hu

theorem batch_no_growth (ps : List DbProduct) :
    ∀ t : List ProductRow, wfProducts t →
      (∀ p ∈ ps, p.url.isSome = true) →
      (∀ p ∈ ps, ∀ nm pr st u, p.name = some nm → p.price = some pr →
        p.store = some st → p.url = some u → keyInTable nm st u t) →
      (insert_products_batch t ps).length = t.length := by
  induction ps with
  | nil => intro t _ _ _; rfl
  | cons p rest ih =>
    intro t hwf hurl hkeys
    have hstep : (insertOrReplaceProduct t p).length = t.length := by
      cases hn : p.name with
      | none => rw [insertOrReplaceProduct_skip t p (Or.inl hn)]
      | some nm =>
      cases hpr : p.price with
      | none => rw [insertOrReplaceProduct_skip t p (Or.inr (Or.inl hpr))]
      | some pr =>
      cases hs : p.store with
      | none => rw [insertOrReplaceProduct_skip t p (Or.inr (Or.inr hs))]
      | some st =>
      obtain ⟨u, hu⟩ := Option.isSome_iff_exists.1 (hurl p (List.mem_cons_self p rest))
      exact insertOrReplace_length_of_key t p hn hpr hs hu hwf
        (hkeys p (List.mem_cons_self p rest) nm pr st u hn hpr hs hu)
    have hrest : (insert_products_batch (insertOrReplaceProduct t p) rest).length =
        (insertOrReplaceProduct t p).length := by
      refine ih _ (wf_insertOrReplaceProduct t p hwf)
        (fun q hq => hurl q (List.mem_cons_of_mem p hq)) ?_
      intro q hq nm pr st u hn hpr hs hu
      exact keyInTable_insertOrReplaceProduct nm st u t p
        (hkeys q (List.mem_cons_of_mem p hq) nm pr st u hn hpr hs hu)
    calc (insert_products_batch t (p :: rest)).length
        = (insert_products_batch (insertOrReplaceProduct t p) rest).length := rfl
      _ = (insertOrReplaceProduct t p).length := hrest
      _ = t.length := hstep

/-- C2 (amended): re-running `insert_products_batch` on an unchanged
product list adds no rows — provided every product's url is non-NULL (and
the table satisfies the unique-index invariant, as any SQLite-maintained
table does).  With a NULL url the unique key never matches, since SQLite
treats NULLs as distinct, and each rerun inserts a fresh row; see
`c2_counterexample`. -/
theorem c2_upsert_idempotent_rowcount (t : List ProductRow) (ps : List DbProduct)
    (hwf : wfProducts t) (hurl : ∀ p ∈ ps, p.url.isSome = true) :
    (insert_products_batch (insert_products_batch t ps) ps).length =
      (insert_products_batch t ps).length := by
  refine batch_no_growth ps _ (wf_batch ps t hwf) hurl ?_
  intro p hp nm pr st u hn hpr hs hu
  exact keyInTable_batch_establish ps t p hp nm pr st u hn hpr hs hu

theorem c2_upsert_idempotent_rowcount_witness :
    (insert_products_batch
        (insert_products_batch []
          [{ name := some "Milk", price := some 10, store := some "ATB", url := some "u" }])
        [{ name := some "Milk", price := some 10, store := some "ATB", url := some "u" }]).length =
      (insert_products_batch []
        [{ name := some "Milk", price := some 10, store := some "ATB", url := some "u" }]).length :=
  c2_upsert_idempotent_rowcount []
    [{ name := some "Milk", price := some 10, store := some "ATB", url := some "u" }]
    List.Pairwise.nil (by decide)

/-- C2 counterexample to the claim as stated ("for every list of
products"): a product whose url is NULL never conflicts with its own
earlier row under SQLite's UNIQUE(name, store, url) — NULLs are distinct —
so running the same one-product batch twice leaves two rows, not one. -/
theorem c2_counterexample :
    (insert_products_batch
        (insert_products_batch []
          [{ name := some "Milk", price := some 10, store := some "ATB" }])
        [{ name := some "Milk", price := some 10, store := some "ATB" }]).length = 2 ∧
    (insert_products_batch []
        [{ name := some "Milk", price := some 10, store := some "ATB" }]).length = 1 := by
  exact ⟨by decide, by decide⟩

/-! ## C6 -/

/-- Two category rows collide on the UNIQUE (store, category, subcategory)
index (which requires a non-NULL subcategory on both sides). -/
def catKeyClash (a b : CatRow) : Prop :=
  a.store = b.store ∧ a.category = b.category ∧
    a.subcategory = b.subcategory ∧ a.subcategory ≠ none

/-- A categories table as SQLite maintains it. -/
def wfCats (t : List CatRow) : Prop :=
  t.Pairwise (fun a b => ¬catKeyClash a b)

/-- A row written by a discovery run: it comes from a non-excluded
candidate, carries the run's store, and records the candidate's name,
subcategory and URL. -/
def fromCandidates (patterns : List String) (cands : List CatCandidate)
    (store : String) (r : CatRow) : Prop :=
  ∃ c ∈ cands, is_category_excluded patterns c.url = false ∧
    r = { store := store, category := c.name, subcategory := c.sub,
          category_url := some c.url }

/-- The per-candidate step of `discover_categories`. -/
def discoverStep (store : String) (patterns : List String)
    (acc : List CatRow) (c : CatCandidate) : List CatRow :=
  if is_category_excluded patterns c.url then acc
  else (save_category_to_db acc store c.name c.sub (some c.url)).1

theorem discover_categories_eq_foldl (t : List CatRow) (store : String)
    (patterns : List String) (cands : List CatCandidate) :
    discover_categories t store patterns cands =
      cands.foldl (discoverStep store patterns) (clear_categories_for_store t store) := rfl

theorem discoverStep_mem (store : String) (patterns : List String)
    (acc : List CatRow) (c : CatCandidate) (r : CatRow)
    (h : r ∈ discoverStep store patterns acc c) :
    r ∈ acc ∨ (is_category_excluded patterns c.url = false ∧
      r = { store := store, category := c.name, subcategory := c.sub,
            category_url := some c.url }) := by
  unfold discoverStep at h
  split at h
  · exact Or.inl h
  · rename_i hex
    unfold save_category_to_db at h
    split at h
    · exact Or.inl h
    · rcases List.mem_append.1 h with h | h
      · exact Or.inl h
      · exact Or.inr ⟨Bool.not_eq_true _ ▸ hex, List.mem_singleton.1 h⟩

theorem discover_foldl_from (store : String) (patterns : List String) :
    ∀ (cs : List CatCandidate) (acc : List CatRow) (r : CatRow),
      r ∈ cs.foldl (discoverStep store patterns) acc →
      r ∈ acc ∨ fromCandidates patterns cs store r := by
  intro cs
  induction cs with
  | nil => intro acc r h; exact Or.inl h
  | cons c rest ih =>
    intro acc r h
    rcases ih (discoverStep store patterns acc c) r h with h2 | h2
    · rcases discoverStep_mem store patterns acc c r h2 with h3 | ⟨hex, h3⟩
      · exact Or.inl h3
      · exact Or.inr ⟨c, List.mem_cons_self c rest, hex, h3⟩
    · obtain ⟨c', hc', hex, h3⟩ := h2
      exact Or.inr ⟨c', List.mem_cons_of_mem c hc', hex, h3⟩

theorem discoverStep_filter_other (store : String) (patterns : List String)
    (acc : List CatRow) (c : CatCandidate) :
    (discoverStep store patterns acc c).filter (fun r => !(r.store == store)) =
      acc.filter (fun r => !(r.store == store)) := by
  unfold discoverStep save_category_to_db
  split
  · rfl
  · split
    · rfl
    · rw [List.filter_append]
      simp

theorem discover_foldl_filter_other (store : String) (patterns : List String) :
    ∀ (cs : List CatCandidate) (acc : List CatRow),
      (cs.foldl (discoverStep store patterns) acc).filter (fun r => !(r.store == store)) =
        acc.filter (fun r => !(r.store == store)) := by
  intro cs
  induction cs with
  | nil => intro acc; rfl
  | cons c rest ih =>
    intro acc
    rw [List.foldl_cons, ih, discoverStep_filter_other]

theorem catConflict_iff (s c : String) (sub : Option String) (r : CatRow) :
    catConflict s c sub r = true ↔
      r.store = s ∧ r.category = c ∧ ∃ x, sub = some x ∧ r.subcategory = some x := by
  cases hs : sub <;> cases hr : r.subcategory <;> simp [catConflict, hs, hr] <;> tauto

theorem wf_discoverStep (store : String) (patterns : List String)
    (acc : List CatRow) (c : CatCandidate) (hwf : wfCats acc) :
    wfCats (discoverStep store patterns acc c) := by
  unfold discoverStep
  split
  · exact hwf
  · unfold save_category_to_db
    split
    · exact hwf
    · rename_i hnc
      unfold wfCats
      rw [List.pairwise_append]
      refine ⟨hwf, List.pairwise_singleton _ _, ?_⟩
      intro a ha b hb
      simp only [List.mem_singleton] at hb
      subst hb
      rintro ⟨h1, h2, h3, h4⟩
      simp only at h1 h2 h3 h4
      apply hnc
      rw [List.any_eq_true]
      refine ⟨a, ha, ?_⟩
      rw [catConflict_iff]
      obtain ⟨x, hx⟩ := Option.ne_none_iff_exists'.1 (h3 ▸ h4)
      exact ⟨h1, h2, x, hx, h3 ▸ hx⟩

theorem wf_clear (t : List CatRow) (store : String) (hwf : wfCats t) :
    wfCats (clear_categories_for_store t store) :=
  List.Pairwise.sublist (List.filter_sublist t) hwf

theorem wf_discover_foldl (store : String) (patterns : List String) :
    ∀ (cs : List CatCandidate) (acc : List CatRow), wfCats acc →
      wfCats (cs.foldl (discoverStep store patterns) acc) := by
  intro cs
  induction cs with
  | nil => exact fun acc h => h
  | cons c rest ih =>
    exact fun acc h => ih _ (wf_discoverStep store patterns acc c h)

/-- C6 (amended): a discovery run deletes all of the store's prior
category rows and writes only freshly discovered, non-excluded candidates
(other stores' rows are untouched), and afterwards the table never holds
two rows sharing (store, category, subcategory) with a non-NULL
subcategory.  Rows with a NULL subcategory can be duplicated — SQLite's
UNIQUE index treats NULLs as distinct and discovery always saves with a
NULL subcategory — see `c6_counterexample`. -/
theorem c6_discovery_full_replace (t : List CatRow) (store : String)
    (patterns : List String) (cands : List CatCandidate) (hwf : wfCats t) :
    (discover_categories t store patterns cands).filter (fun r => !(r.store == store)) =
      t.filter (fun r => !(r.store == store)) ∧
    (∀ r ∈ discover_categories t store patterns cands, r.store = store →
      fromCandidates patterns cands store r) ∧
    wfCats (discover_categories t store patterns cands) := by
  rw [discover_categories_eq_foldl]
  refine ⟨?_, ?_, ?_⟩
  · rw [discover_foldl_filter_other]
    unfold clear_categories_for_store
    rw [List.filter_filter]
    congr 1
    funext a
    cases a.store == store <;> rfl
  · intro r hr hs
    rcases discover_foldl_from store patterns cands _ r hr with h | h
    · exfalso
      unfold clear_categories_for_store at h
      rw [List.mem_filter] at h
      revert hs
      simpa using h.2
    · exact h
  · exact wf_discover_foldl store patterns cands _ (wf_clear t store hwf)

theorem c6_discovery_full_replace_witness :
    (discover_categories [⟨"ATB", "Keep", none, none⟩] "Varus" ["promo"]
        [⟨"Хліб", none, "https://varus.ua/hlib"⟩,
         ⟨"Акції", none, "https://varus.ua/promo-1"⟩]).filter
        (fun r => !(r.store == "Varus")) =
      ([⟨"ATB", "Keep", none, none⟩] : List CatRow).filter (fun r => !(r.store == "Varus")) ∧
    fromCandidates ["promo"]
        [⟨"Хліб", none, "https://varus.ua/hlib"⟩,
         ⟨"Акції", none, "https://varus.ua/promo-1"⟩] "Varus"
        ⟨"Varus", "Хліб", none, some "https://varus.ua/hlib"⟩ :=
  ⟨(c6_discovery_full_replace [⟨"ATB", "Keep", none, none⟩] "Varus" ["promo"]
      [⟨"Хліб", none, "https://varus.ua/hlib"⟩, ⟨"Акції", none, "https://varus.ua/promo-1"⟩]
      (List.pairwise_singleton _ _)).1,
   (c6_discovery_full_replace [⟨"ATB", "Keep", none, none⟩] "Varus" ["promo"]
      [⟨"Хліб", none, "https://varus.ua/hlib"⟩, ⟨"Акції", none, "https://varus.ua/promo-1"⟩]
      (List.pairwise_singleton _ _)).2.1
      ⟨"Varus", "Хліб", none, some "https://varus.ua/hlib"⟩ (by decide) rfl⟩

/-- C6 counterexample to the claim as stated: discovery saves every
category with a NULL subcategory under `INSERT OR IGNORE`, and SQLite's
UNIQUE(store, category, subcategory) never fires on NULLs, so the same
category name surfacing twice in the navigation leaves two rows with the
identical (category, subcategory) pair. -/
theorem c6_counterexample :
    (discover_categories [] "Varus" [] [⟨"Хліб", none, "u"⟩, ⟨"Хліб", none, "u"⟩]).map
        (fun r => (r.category, r.subcategory)) = [("Хліб", none), ("Хліб", none)] := by
  decide

end GroceryScraper